import Mathlib

/-
Shallow embedding of the statistical-distribution evaluation engine
(distribution registry, special-function helpers and point sampler) of the
repository, together with proofs of the specified properties.

Numbers are modelled as real numbers: every JavaScript arithmetic
expression is translated literally, with `Math.pow` on positive bases as
`Real.rpow`, `Math.round` as `round` (ties toward positive infinity, which
is the ECMAScript behaviour), `Math.ceil`/`Math.floor` as `Int.ceil` /
`Int.floor`, and `x.toFixed(6)` followed by `parseFloat` as rounding to
the nearest multiple of 10^(-6).
-/

noncomputable section

/-- Kind of a distribution family: continuous or discrete. -/
inductive Kind where
  | continuous
  | discrete
deriving DecidableEq

/-- Descriptor of one parameter of a distribution family (`ParamDef` in the source). -/
structure ParamDef where
  name : String
  label : String
  min : ℝ
  max : ℝ
  step : ℝ
  default : ℝ

/-- Distribution descriptor (`Distribution` in the source).  Parameter vectors are
positional lists of reals; `support` returns the heuristic plotting window and
`pdf` the density (continuous) or mass (discrete) at a point. -/
structure Distribution where
  name : String
  kind : Kind
  params : List ParamDef
  support : List ℝ → ℝ × ℝ
  pdf : ℝ → List ℝ → ℝ
  description : String

/-- Sample point `{x, y}` produced by the point sampler. -/
structure Point where
  x : ℝ
  y : ℝ

/-- Positional access to a parameter vector, as JavaScript array destructuring
does for an index that is present (all claims assume well-formed arity). -/
def pget (v : List ℝ) (i : ℕ) : ℝ := v.getD i 0

/-- Lanczos log-gamma, main branch (the source body after the `z -= 1` shift,
with the 9-term coefficient loop unrolled). -/
def logGammaCore (z : ℝ) : ℝ :=
  let w := z - 1
  let x := 0.99999999999980993 + 676.5203681218851 / (w + 1)
    + (-1259.1392167224028) / (w + 2) + 771.32342877765313 / (w + 3)
    + (-176.61502916214059) / (w + 4) + 12.507343278686905 / (w + 5)
    + (-0.13857109526572012) / (w + 6) + 9.9843695780195716e-6 / (w + 7)
    + 1.5056327351493116e-7 / (w + 8)
  let t := w + 7 + 0.5
  0.5 * Real.log (2 * Real.pi) + (w + 0.5) * Real.log t - t + Real.log x

/-- Lanczos approximation of log Γ (`logGamma` in the source); for `z < 0.5`
the source recurses once through the reflection identity, and the recursive
call (at `1 - z ≥ 0.5`) always takes the main branch, unfolded here. -/
def logGamma (z : ℝ) : ℝ :=
  if z < 0.5 then Real.log (Real.pi / Real.sin (Real.pi * z)) - logGammaCore (1 - z)
  else logGammaCore z

/-- Log of the Beta function (`logBeta` in the source). -/
def logBeta (a b : ℝ) : ℝ := logGamma a + logGamma b - logGamma (a + b)

/-- Iterative product of the binomial-coefficient loop:
`result *= (n - i) / (i + 1)` for `i = 0 .. m-1`. -/
def binomCoeffLoop (n : ℝ) : ℕ → ℝ
  | 0 => 1
  | m + 1 => binomCoeffLoop n m * ((n - m) / (m + 1))

/-- Binomial coefficient (`binomCoeff` in the source): 0 outside `0 ≤ k ≤ n`,
1 at the endpoints, otherwise the iterative product after the reduction
`k = min(k, n - k)`.  A JavaScript `for (let i = 0; i < k; i++)` loop with a
real bound `k > 0` runs `⌈k⌉` times. -/
def binomCoeff (n k : ℝ) : ℝ :=
  if k < 0 ∨ n < k then 0
  else if k = 0 ∨ k = n then 1
  else binomCoeffLoop n (Int.toNat ⌈min k (n - k)⌉)

/-- Shared constant `SQRT2 = Math.sqrt(2)`. -/
def SQRT2 : ℝ := Real.sqrt 2

/-- Shared constant `SQRT2PI = Math.sqrt(2 * Math.PI)`. -/
def SQRT2PI : ℝ := Real.sqrt (2 * Real.pi)

/-- Normal density (`normalPDF` in the source). -/
def normalPDF (x mu sigma : ℝ) : ℝ :=
  let z := (x - mu) / sigma
  Real.exp (-0.5 * z * z) / (sigma * SQRT2PI)

/-- Horner polynomial of the Abramowitz-Stegun erf approximation:
`(((((a5*t + a4)*t) + a3)*t + a2)*t + a1)*t` with the source coefficients. -/
def erfPoly (t : ℝ) : ℝ :=
  ((((1.061405429 * t + (-1.453152027)) * t + 1.421413741) * t
      + (-0.284496736)) * t + 0.254829592) * t

/-- Error function approximation (`erf` in the source). -/
def erf (x : ℝ) : ℝ :=
  let sign : ℝ := if x < 0 then -1 else 1
  let ax := |x|
  let t := 1 / (1 + 0.3275911 * ax)
  let y := 1 - erfPoly t * Real.exp (-(ax * ax))
  sign * y

/-- Standard normal CDF (`normalCDF` in the source). -/
def normalCDF (x : ℝ) : ℝ := 0.5 * (1 + erf (x / SQRT2))

/-- ECMAScript `Math.round`: round half toward positive infinity, which is
exactly Mathlib's `round`. -/
def mathRound (x : ℝ) : ℤ := round x

/-- Rounding of an x coordinate to 6 decimal places, the effect of
`parseFloat(x.toFixed(6))` in the point sampler. -/
def round6 (x : ℝ) : ℝ := (round (x * 1000000) : ℝ) / 1000000

/-- Finiteness test on a sampled density.  The embedding works in the real
numbers, where every value is finite, so JavaScript `isFinite` is constantly
true; it is kept so that the sampler below mirrors the source line
`isFinite(y) ? y : 0`. -/
def isFiniteR (_y : ℝ) : Bool := true

/-- Normal distribution descriptor. -/
def NormalDist : Distribution where
  name := "Normal"
  kind := Kind.continuous
  params := [⟨"mu", "mu (mean)", -10, 10, 0.1, 0⟩, ⟨"sigma", "sigma (std dev)", 0.1, 10, 0.1, 1⟩]
  support := fun v => (pget v 0 - 4 * pget v 1, pget v 0 + 4 * pget v 1)
  pdf := fun x v => normalPDF x (pget v 0) (pget v 1)
  description := "mu is the mean, sigma is the standard deviation."

/-- Beta distribution descriptor. -/
def Beta : Distribution where
  name := "Beta"
  kind := Kind.continuous
  params := [⟨"alpha", "alpha", 0.1, 10, 0.1, 2⟩, ⟨"beta", "beta", 0.1, 10, 0.1, 5⟩]
  support := fun _ => (0, 1)
  pdf := fun x v =>
    if x ≤ 0 ∨ 1 ≤ x then 0
    else Real.exp ((pget v 0 - 1) * Real.log x + (pget v 1 - 1) * Real.log (1 - x)
      - logBeta (pget v 0) (pget v 1))
  description := "alpha and beta shape the distribution on the unit interval."

/-- Gamma distribution descriptor. -/
def Gamma : Distribution where
  name := "Gamma"
  kind := Kind.continuous
  params := [⟨"alpha", "alpha (shape)", 0.1, 10, 0.1, 2⟩, ⟨"beta", "beta (rate)", 0.1, 5, 0.1, 1⟩]
  support := fun v => (0, 20 / pget v 1)
  pdf := fun x v =>
    if x ≤ 0 then 0
    else Real.exp (pget v 0 * Real.log (pget v 1) + (pget v 0 - 1) * Real.log x
      - pget v 1 * x - logGamma (pget v 0))
  description := "alpha is the shape, beta is the rate."

/-- HalfNormal distribution descriptor. -/
def HalfNormal : Distribution where
  name := "HalfNormal"
  kind := Kind.continuous
  params := [⟨"sigma", "sigma (scale)", 0.1, 10, 0.1, 1⟩]
  support := fun v => (0, 4 * pget v 0)
  pdf := fun x v =>
    if x < 0 then 0
    else (2 / (pget v 0 * SQRT2PI)) * Real.exp (-0.5 * (x / pget v 0) ^ 2)
  description := "sigma is the scale. Only the positive half of a Normal."

/-- Exponential distribution descriptor. -/
def Exponential : Distribution where
  name := "Exponential"
  kind := Kind.continuous
  params := [⟨"lam", "lam (rate)", 0.1, 5, 0.1, 1⟩]
  support := fun v => (0, 6 / pget v 0)
  pdf := fun x v => if x < 0 then 0 else pget v 0 * Real.exp (-(pget v 0) * x)
  description := "lam is the rate."

/-- Uniform distribution descriptor. -/
def Uniform : Distribution where
  name := "Uniform"
  kind := Kind.continuous
  params := [⟨"lower", "lower", -10, 9, 0.5, 0⟩, ⟨"upper", "upper", -9, 10, 0.5, 1⟩]
  support := fun v => (pget v 0 - 0.5, pget v 1 + 0.5)
  pdf := fun x v =>
    if pget v 1 ≤ pget v 0 then 0
    else if pget v 0 ≤ x ∧ x ≤ pget v 1 then 1 / (pget v 1 - pget v 0) else 0
  description := "Constant density between lower and upper bounds."

/-- StudentT distribution descriptor. -/
def StudentT : Distribution where
  name := "StudentT"
  kind := Kind.continuous
  params := [⟨"nu", "nu (df)", 1, 30, 0.5, 5⟩, ⟨"mu", "mu (mean)", -5, 5, 0.1, 0⟩,
    ⟨"sigma", "sigma (scale)", 0.1, 5, 0.1, 1⟩]
  support := fun v => (pget v 1 - 5 * pget v 2, pget v 1 + 5 * pget v 2)
  pdf := fun x v =>
    let nu := pget v 0
    let z := (x - pget v 1) / pget v 2
    Real.exp (logGamma ((nu + 1) / 2) - logGamma (nu / 2)) /
      (Real.sqrt (nu * Real.pi) * pget v 2) *
      (1 + z * z / nu) ^ (-(nu + 1) / 2)
  description := "nu is degrees of freedom, mu is location, sigma is scale."

/-- LogNormal distribution descriptor. -/
def LogNormal : Distribution where
  name := "LogNormal"
  kind := Kind.continuous
  params := [⟨"mu", "mu (log mean)", -2, 3, 0.1, 0⟩, ⟨"sigma", "sigma (log std)", 0.1, 2, 0.05, 0.5⟩]
  support := fun v => (0, Real.exp (pget v 0 + 4 * pget v 1))
  pdf := fun x v =>
    if x ≤ 0 then 0
    else Real.exp (-0.5 * ((Real.log x - pget v 0) / pget v 1) ^ 2) /
      (x * pget v 1 * SQRT2PI)
  description := "mu and sigma are the mean and std dev of the log."

/-- Cauchy distribution descriptor. -/
def CauchyDist : Distribution where
  name := "Cauchy"
  kind := Kind.continuous
  params := [⟨"alpha", "alpha (location)", -5, 5, 0.1, 0⟩, ⟨"beta", "beta (scale)", 0.1, 5, 0.1, 1⟩]
  support := fun v => (pget v 0 - 8 * pget v 1, pget v 0 + 8 * pget v 1)
  pdf := fun x v =>
    let z := (x - pget v 0) / pget v 1
    1 / (Real.pi * pget v 1 * (1 + z * z))
  description := "alpha is location, beta is scale."

/-- Laplace distribution descriptor. -/
def Laplace : Distribution where
  name := "Laplace"
  kind := Kind.continuous
  params := [⟨"mu", "mu (mean)", -5, 5, 0.1, 0⟩, ⟨"b", "b (scale)", 0.1, 5, 0.1, 1⟩]
  support := fun v => (pget v 0 - 6 * pget v 1, pget v 0 + 6 * pget v 1)
  pdf := fun x v => Real.exp (-|x - pget v 0| / pget v 1) / (2 * pget v 1)
  description := "mu is the mean, b is the scale."

/-- Weibull distribution descriptor. -/
def Weibull : Distribution where
  name := "Weibull"
  kind := Kind.continuous
  params := [⟨"alpha", "alpha (shape)", 0.1, 10, 0.1, 1.5⟩, ⟨"beta", "beta (scale)", 0.1, 5, 0.1, 1⟩]
  support := fun v => (0, pget v 1 * 4)
  pdf := fun x v =>
    if x ≤ 0 then 0
    else (pget v 0 / pget v 1) * (x / pget v 1) ^ (pget v 0 - 1) *
      Real.exp (-((x / pget v 1) ^ (pget v 0)))
  description := "alpha is shape, beta is scale."

/-- Triangular distribution descriptor. -/
def Triangular : Distribution where
  name := "Triangular"
  kind := Kind.continuous
  params := [⟨"lower", "lower", -10, 5, 0.5, 0⟩, ⟨"c", "c (mode)", -9, 9, 0.5, 0.5⟩,
    ⟨"upper", "upper", -5, 10, 0.5, 1⟩]
  support := fun v => (pget v 0 - 0.2, pget v 2 + 0.2)
  pdf := fun x v =>
    let lower := pget v 0
    let c := pget v 1
    let upper := pget v 2
    if upper ≤ lower ∨ c < lower ∨ upper < c then 0
    else if x < lower ∨ upper < x then 0
    else if x < c then (2 * (x - lower)) / ((upper - lower) * (c - lower))
    else if x = c then 2 / (upper - lower)
    else (2 * (upper - x)) / ((upper - lower) * (upper - c))
  description := "lower is min, c is mode, upper is max."

/-- SkewNormal distribution descriptor. -/
def SkewNormal : Distribution where
  name := "SkewNormal"
  kind := Kind.continuous
  params := [⟨"mu", "mu (location)", -5, 5, 0.1, 0⟩, ⟨"sigma", "sigma (scale)", 0.1, 5, 0.1, 1⟩,
    ⟨"alpha", "alpha (skew)", -10, 10, 0.5, 3⟩]
  support := fun v => (pget v 0 - 4 * pget v 1, pget v 0 + 4 * pget v 1)
  pdf := fun x v =>
    let z := (x - pget v 0) / pget v 1
    (2 / pget v 1) * normalPDF z 0 1 * normalCDF (pget v 2 * z)
  description := "mu is location, sigma is scale, alpha controls skewness."

/-- InverseGamma distribution descriptor. -/
def InverseGamma : Distribution where
  name := "InverseGamma"
  kind := Kind.continuous
  params := [⟨"alpha", "alpha (shape)", 0.5, 10, 0.1, 2⟩, ⟨"beta", "beta (scale)", 0.1, 10, 0.1, 1⟩]
  support := fun v => (0, pget v 1 / (pget v 0 - 1) * 8)
  pdf := fun x v =>
    if x ≤ 0 then 0
    else Real.exp (pget v 0 * Real.log (pget v 1) - logGamma (pget v 0)
      - (pget v 0 + 1) * Real.log x - pget v 1 / x)
  description := "alpha is shape, beta is scale."

/-- Logistic distribution descriptor. -/
def Logistic : Distribution where
  name := "Logistic"
  kind := Kind.continuous
  params := [⟨"mu", "mu (location)", -5, 5, 0.1, 0⟩, ⟨"s", "s (scale)", 0.1, 5, 0.1, 1⟩]
  support := fun v => (pget v 0 - 7 * pget v 1, pget v 0 + 7 * pget v 1)
  pdf := fun x v =>
    let z := Real.exp (-(x - pget v 0) / pget v 1)
    z / (pget v 1 * (1 + z) ^ 2)
  description := "mu is location, s is scale."

/-- Binomial distribution descriptor. -/
def Binomial : Distribution where
  name := "Binomial"
  kind := Kind.discrete
  params := [⟨"n", "n (trials)", 1, 50, 1, 10⟩, ⟨"p", "p (prob)", 0.01, 0.99, 0.01, 0.5⟩]
  support := fun v => (-0.5, pget v 0 + 0.5)
  pdf := fun x v =>
    let k := mathRound x
    if (k : ℝ) < 0 ∨ pget v 0 < (k : ℝ) then 0
    else binomCoeff (pget v 0) (k : ℝ) * (pget v 1) ^ ((k : ℝ)) *
      (1 - pget v 1) ^ (pget v 0 - (k : ℝ))
  description := "n is number of trials, p is success probability."

/-- Poisson distribution descriptor. -/
def Poisson : Distribution where
  name := "Poisson"
  kind := Kind.discrete
  params := [⟨"mu", "mu (rate)", 0.5, 30, 0.5, 5⟩]
  support := fun v => (-0.5, max 20 (pget v 0 + 5 * Real.sqrt (pget v 0)) + 0.5)
  pdf := fun x v =>
    let k := mathRound x
    if k < 0 then 0
    else Real.exp ((k : ℝ) * Real.log (pget v 0) - pget v 0 - logGamma ((k : ℝ) + 1))
  description := "mu is the expected number of events."

/-- NegativeBinomial distribution descriptor. -/
def NegativeBinomial : Distribution where
  name := "NegativeBinomial"
  kind := Kind.discrete
  params := [⟨"n", "n (successes)", 1, 30, 1, 5⟩, ⟨"p", "p (prob)", 0.01, 0.99, 0.01, 0.5⟩]
  support := fun v =>
    (-0.5, (⌈pget v 0 * (1 - pget v 1) / pget v 1
      + 4 * Real.sqrt (pget v 0 * (1 - pget v 1) / (pget v 1 * pget v 1))⌉ : ℝ) + 0.5)
  pdf := fun x v =>
    let k := mathRound x
    if k < 0 then 0
    else Real.exp (logGamma ((k : ℝ) + pget v 0) - logGamma (pget v 0) - logGamma ((k : ℝ) + 1)
      + pget v 0 * Real.log (pget v 1) + (k : ℝ) * Real.log (1 - pget v 1))
  description := "n is number of successes, p is success probability."

/-- Geometric distribution descriptor. -/
def Geometric : Distribution where
  name := "Geometric"
  kind := Kind.discrete
  params := [⟨"p", "p (prob)", 0.01, 0.99, 0.01, 0.3⟩]
  support := fun _ => (0.5, 20.5)
  pdf := fun x v =>
    let k := mathRound x
    if k < 1 then 0
    else pget v 0 * (1 - pget v 0) ^ ((k : ℝ) - 1)
  description := "p is the success probability."

/-- DiscreteUniform distribution descriptor. -/
def DiscreteUniform : Distribution where
  name := "DiscreteUniform"
  kind := Kind.discrete
  params := [⟨"lower", "lower", -20, 0, 1, 1⟩, ⟨"upper", "upper", 1, 20, 1, 6⟩]
  support := fun v => (pget v 0 - 0.5, pget v 1 + 0.5)
  pdf := fun x v =>
    let k := mathRound x
    if (k : ℝ) < pget v 0 ∨ pget v 1 < (k : ℝ) ∨ pget v 1 < pget v 0 then 0
    else 1 / (pget v 1 - pget v 0 + 1)
  description := "Equal probability for each integer from lower to upper."

/-- Bernoulli distribution descriptor. -/
def Bernoulli : Distribution where
  name := "Bernoulli"
  kind := Kind.discrete
  params := [⟨"p", "p (prob)", 0.01, 0.99, 0.01, 0.5⟩]
  support := fun _ => (-0.5, 1.5)
  pdf := fun x v =>
    let k := mathRound x
    if k = 0 then 1 - pget v 0
    else if k = 1 then pget v 0
    else 0
  description := "p is the probability of success."

/-- Registry of the 21 distribution families (`DISTRIBUTIONS` in the source). -/
def DISTRIBUTIONS : List Distribution :=
  [NormalDist, Beta, Gamma, HalfNormal, Exponential, Uniform,
   StudentT, LogNormal, CauchyDist, Laplace, Weibull, Triangular,
   SkewNormal, InverseGamma, Logistic,
   Binomial, Poisson, NegativeBinomial, Geometric, DiscreteUniform, Bernoulli]

/-- Point sampler (`computePoints` in the source).  For discrete families it
enumerates the integers of the support window; for continuous families it
samples `numPoints + 1` equally spaced points, rounding x to 6 decimals and
replacing a non-finite density by 0. -/
def computePoints (dist : Distribution) (params : List ℝ) (numPoints : ℕ) : List Point :=
  let lo := (dist.support params).1
  let hi := (dist.support params).2
  if dist.kind = Kind.discrete then
    let lo_i : ℤ := ⌈lo + 0.5⌉
    let hi_i : ℤ := ⌊hi - 0.5⌋
    (List.range (Int.toNat (hi_i + 1 - lo_i))).map (fun j : ℕ =>
      ⟨((lo_i + (j : ℤ) : ℤ) : ℝ), dist.pdf ((lo_i + (j : ℤ) : ℤ) : ℝ) params⟩)
  else
    let step := (hi - lo) / (numPoints : ℝ)
    (List.range (numPoints + 1)).map (fun i : ℕ =>
      let x := lo + (i : ℝ) * step
      let y := dist.pdf x params
      ⟨round6 x, if isFiniteR y then y else 0⟩)

/-- Fallback parameter descriptor used for positional access. -/
def pdDefault : ParamDef := ⟨"", "", 0, 0, 0, 0⟩

/-- A parameter vector matches a family's arity and each entry lies within the
declared min/max range of the corresponding `ParamDef`. -/
def InRange (d : Distribution) (v : List ℝ) : Prop :=
  v.length = d.params.length ∧
  ∀ i, i < v.length →
    (d.params.getD i pdDefault).min ≤ pget v i ∧ pget v i ≤ (d.params.getD i pdDefault).max

/-- Ordering side conditions on the parameter vector under which every support
window is ordered: the declared min/max ranges still allow inverted
configurations for Uniform and Triangular (upper far below lower) and for
InverseGamma (shape at most 1), which are excluded here. -/
def SupportSafe (d : Distribution) (v : List ℝ) : Prop :=
  (d.name = "Uniform" → pget v 0 ≤ pget v 1) ∧
  (d.name = "Triangular" → pget v 0 ≤ pget v 2) ∧
  (d.name = "InverseGamma" → 1 < pget v 0)

end

/-- Unfolded form of `erf`. -/
lemma erf_eq (x : ℝ) : erf x = (if x < 0 then (-1:ℝ) else 1) *
    (1 - erfPoly (1 / (1 + 0.3275911 * |x|)) * Real.exp (-(|x| * |x|))) := rfl

/-- The Abramowitz-Stegun Horner polynomial is nonnegative on the unit interval. -/
lemma erfPoly_nonneg {t : ℝ} (h0 : 0 ≤ t) (h1 : t ≤ 1) : 0 ≤ erfPoly t := by
  have hq : 0 ≤ 1.061405429 * t ^ 4 - 1.453152027 * t ^ 3 + 1.421413741 * t ^ 2
      - 0.284496736 * t + 0.254829592 := by
    nlinarith [sq_nonneg (t ^ 2 - 3 / 10), sq_nonneg (t - 47 / 200),
      mul_nonneg (mul_nonneg h0 h0) (sub_nonneg.mpr h1), sq_nonneg t,
      mul_nonneg h0 (sub_nonneg.mpr h1)]
  have hrw : erfPoly t = t * (1.061405429 * t ^ 4 - 1.453152027 * t ^ 3
      + 1.421413741 * t ^ 2 - 0.284496736 * t + 0.254829592) := by
    unfold erfPoly; ring
  rw [hrw]
  exact mul_nonneg h0 hq

/-- The Abramowitz-Stegun Horner polynomial is at most 2 on the unit interval. -/
lemma erfPoly_le_two {t : ℝ} (h0 : 0 ≤ t) (h1 : t ≤ 1) : erfPoly t ≤ 2 := by
  unfold erfPoly
  nlinarith [mul_nonneg h0 (sub_nonneg.mpr h1),
    mul_nonneg (mul_nonneg h0 h0) (sub_nonneg.mpr h1),
    mul_nonneg (mul_nonneg (mul_nonneg h0 h0) h0) (sub_nonneg.mpr h1),
    mul_nonneg (mul_nonneg (mul_nonneg (mul_nonneg h0 h0) h0) h0) (sub_nonneg.mpr h1)]

/-- The erf approximation always lies in the closed interval from -1 to 1. -/
lemma erf_bounds (x : ℝ) : -1 ≤ erf x ∧ erf x ≤ 1 := by
  rw [erf_eq]
  have hax0 : (0:ℝ) ≤ |x| := abs_nonneg x
  have hden : (1:ℝ) ≤ 1 + 0.3275911 * |x| := by nlinarith
  have hden0 : (0:ℝ) < 1 + 0.3275911 * |x| := by linarith
  have ht0 : 0 ≤ 1 / (1 + 0.3275911 * |x|) := by positivity
  have ht1 : 1 / (1 + 0.3275911 * |x|) ≤ 1 := by
    rw [div_le_one hden0]; linarith
  have hE0 : 0 < Real.exp (-(|x| * |x|)) := Real.exp_pos _
  have hE1 : Real.exp (-(|x| * |x|)) ≤ 1 := by
    rw [Real.exp_le_one_iff]; nlinarith
  have hp0 : 0 ≤ erfPoly (1 / (1 + 0.3275911 * |x|)) := erfPoly_nonneg ht0 ht1
  have hp2 : erfPoly (1 / (1 + 0.3275911 * |x|)) ≤ 2 := erfPoly_le_two ht0 ht1
  have hprod0 : 0 ≤ erfPoly (1 / (1 + 0.3275911 * |x|)) * Real.exp (-(|x| * |x|)) :=
    mul_nonneg hp0 hE0.le
  have hprod2 : erfPoly (1 / (1 + 0.3275911 * |x|)) * Real.exp (-(|x| * |x|)) ≤ 2 := by
    calc erfPoly (1 / (1 + 0.3275911 * |x|)) * Real.exp (-(|x| * |x|))
        ≤ 2 * 1 := mul_le_mul hp2 hE1 hE0.le (by norm_num)
      _ = 2 := by norm_num
  by_cases hx : x < 0 <;> simp only [hx, if_true, if_false] <;> constructor <;> nlinarith

/-- The standard-normal CDF approximation is nonnegative. -/
lemma normalCDF_nonneg (x : ℝ) : 0 ≤ normalCDF x := by
  have h := (erf_bounds (x / SQRT2)).1
  unfold normalCDF
  linarith

/-- The standard-normal CDF approximation is at most one. -/
lemma normalCDF_le_one (x : ℝ) : normalCDF x ≤ 1 := by
  have h := (erf_bounds (x / SQRT2)).2
  unfold normalCDF
  linarith

/-- The iterative binomial product is nonnegative when every numerator is. -/
lemma binomCoeffLoop_nonneg {n : ℝ} {m : ℕ} (h : ∀ i : ℕ, i < m → 0 ≤ n - (i : ℝ)) :
    0 ≤ binomCoeffLoop n m := by
  induction m with
  | zero => norm_num [binomCoeffLoop]
  | succ m ih =>
    rw [binomCoeffLoop]
    refine mul_nonneg (ih fun i hi => h i (Nat.lt_succ_of_lt hi)) ?_
    refine div_nonneg (h m (Nat.lt_succ_self m)) ?_
    positivity

/-- The source binomial coefficient is nonnegative for all real arguments. -/
lemma binomCoeff_nonneg (n k : ℝ) : 0 ≤ binomCoeff n k := by
  unfold binomCoeff
  split
  · exact le_refl 0
  · split
    · exact zero_le_one
    · rename_i hguard1 hguard2
      push_neg at hguard1 hguard2
      obtain ⟨hk0, hkn⟩ := hguard1
      obtain ⟨hkne0, hknen⟩ := hguard2
      have hk0' : 0 < k := lt_of_le_of_ne hk0 (Ne.symm hkne0)
      have hkn' : k < n := lt_of_le_of_ne hkn hknen
      refine binomCoeffLoop_nonneg fun i hi => ?_
      have h1 : (i : ℤ) < ⌈min k (n - k)⌉ := Int.lt_toNat.mp hi
      have h2 : ((i : ℤ) : ℝ) ≤ (⌈min k (n - k)⌉ : ℝ) - 1 := by
        have : (i : ℤ) ≤ ⌈min k (n - k)⌉ - 1 := by omega
        exact_mod_cast this
      have h3 : (⌈min k (n - k)⌉ : ℝ) < min k (n - k) + 1 := Int.ceil_lt_add_one _
      have h4 : (i : ℝ) < min k (n - k) := by push_cast at h2; linarith
      have h5 : min k (n - k) ≤ n - k := min_le_right _ _
      linarith

/-- Rounding to 6 decimals is strictly monotone across a gap of one quantum. -/
lemma round6_lt {x y : ℝ} (h : x + 1 / 1000000 ≤ y) : round6 x < round6 y := by
  unfold round6
  have h1 : x * 1000000 + 1 / 2 + 1 ≤ y * 1000000 + 1 / 2 := by linarith
  have h2 : round (x * 1000000) + 1 ≤ round (y * 1000000) := by
    rw [round_eq, round_eq]
    calc ⌊x * 1000000 + 1 / 2⌋ + 1 = ⌊x * 1000000 + 1 / 2 + 1⌋ := (Int.floor_add_one _).symm
      _ ≤ ⌊y * 1000000 + 1 / 2⌋ := Int.floor_le_floor h1
  have h3 : (round (x * 1000000) : ℝ) < (round (y * 1000000) : ℝ) := by exact_mod_cast h2
  have : (0:ℝ) < 1000000 := by norm_num
  exact div_lt_div_of_pos_right h3 this

/-- Rounding a real that is already an integer is the identity. -/
lemma mathRound_intCast (k : ℤ) : mathRound ((k : ℤ) : ℝ) = k := by
  unfold mathRound
  exact round_intCast k

/-- Range bounds of one positional parameter, extracted from `InRange`. -/
lemma inRange_bounds {d : Distribution} {v : List ℝ} (h : InRange d v) (i : ℕ)
    (hi : i < d.params.length) :
    (d.params.getD i pdDefault).min ≤ pget v i ∧ pget v i ≤ (d.params.getD i pdDefault).max :=
  h.2 i (by rw [h.1]; exact hi)

/-- Normal density is nonnegative for a nonnegative scale. -/
lemma normalPDF_nonneg {x mu sigma : ℝ} (h : 0 ≤ sigma) : 0 ≤ normalPDF x mu sigma := by
  simp only [normalPDF, SQRT2PI]
  exact div_nonneg (Real.exp_pos _).le (mul_nonneg h (Real.sqrt_nonneg _))

/-- C1: for every family of the registry, every parameter vector inside the
declared min/max ranges, and every real `x`, the density/mass is nonnegative
(and, the embedding being real-valued, a finite real number). -/
theorem c1_pdf_nonneg (d : Distribution) (hd : d ∈ DISTRIBUTIONS) (v : List ℝ)
    (hv : InRange d v) (x : ℝ) : 0 ≤ d.pdf x v := by
  simp only [DISTRIBUTIONS, List.mem_cons, List.not_mem_nil, or_false] at hd
  rcases hd with rfl|rfl|rfl|rfl|rfl|rfl|rfl|rfl|rfl|rfl|rfl|rfl|rfl|rfl|rfl|rfl|rfl|rfl|rfl|rfl|rfl
  · -- Normal
    have hσ := (inRange_bounds hv 1 (by norm_num [NormalDist])).1
    norm_num [NormalDist, pdDefault] at hσ
    exact normalPDF_nonneg (by linarith)
  · -- Beta
    show 0 ≤ Beta.pdf x v
    simp only [Beta]
    split
    · exact le_refl 0
    · exact (Real.exp_pos _).le
  · -- Gamma
    show 0 ≤ Gamma.pdf x v
    simp only [Gamma]
    split
    · exact le_refl 0
    · exact (Real.exp_pos _).le
  · -- HalfNormal
    have hσ := (inRange_bounds hv 0 (by norm_num [HalfNormal])).1
    norm_num [HalfNormal, pdDefault] at hσ
    show 0 ≤ HalfNormal.pdf x v
    simp only [HalfNormal, SQRT2PI]
    split
    · exact le_refl 0
    · exact mul_nonneg
        (div_nonneg (by norm_num) (mul_nonneg (by linarith) (Real.sqrt_nonneg _)))
        (Real.exp_pos _).le
  · -- Exponential
    have hlam := (inRange_bounds hv 0 (by norm_num [Exponential])).1
    norm_num [Exponential, pdDefault] at hlam
    show 0 ≤ Exponential.pdf x v
    simp only [Exponential]
    split
    · exact le_refl 0
    · exact mul_nonneg (by linarith) (Real.exp_pos _).le
  · -- Uniform
    show 0 ≤ Uniform.pdf x v
    simp only [Uniform]
    split
    · exact le_refl 0
    · rename_i h1
      push_neg at h1
      split
      · exact div_nonneg zero_le_one (by linarith)
      · exact le_refl 0
  · -- StudentT
    have hν := (inRange_bounds hv 0 (by norm_num [StudentT])).1
    have hσ := (inRange_bounds hv 2 (by norm_num [StudentT])).1
    norm_num [StudentT, pdDefault] at hν hσ
    show 0 ≤ StudentT.pdf x v
    simp only [StudentT]
    refine mul_nonneg
      (div_nonneg (Real.exp_pos _).le (mul_nonneg (Real.sqrt_nonneg _) (by linarith)))
      (Real.rpow_nonneg ?_ _)
    have : 0 ≤ ((x - pget v 1) / pget v 2) * ((x - pget v 1) / pget v 2) := mul_self_nonneg _
    have h0 : (0:ℝ) < pget v 0 := by linarith
    positivity
  · -- LogNormal
    have hσ := (inRange_bounds hv 1 (by norm_num [LogNormal])).1
    norm_num [LogNormal, pdDefault] at hσ
    show 0 ≤ LogNormal.pdf x v
    simp only [LogNormal, SQRT2PI]
    split
    · exact le_refl 0
    · rename_i hx
      push_neg at hx
      exact div_nonneg (Real.exp_pos _).le
        (mul_nonneg (mul_nonneg hx.le (by linarith)) (Real.sqrt_nonneg _))
  · -- Cauchy
    have hβ := (inRange_bounds hv 1 (by norm_num [CauchyDist])).1
    norm_num [CauchyDist, pdDefault] at hβ
    show 0 ≤ CauchyDist.pdf x v
    simp only [CauchyDist]
    refine div_nonneg zero_le_one (mul_nonneg (mul_nonneg Real.pi_pos.le (by linarith)) ?_)
    nlinarith [mul_self_nonneg ((x - pget v 0) / pget v 1)]
  · -- Laplace
    have hb := (inRange_bounds hv 1 (by norm_num [Laplace])).1
    norm_num [Laplace, pdDefault] at hb
    show 0 ≤ Laplace.pdf x v
    simp only [Laplace]
    exact div_nonneg (Real.exp_pos _).le (by linarith)
  · -- Weibull
    have hα := (inRange_bounds hv 0 (by norm_num [Weibull])).1
    have hβ := (inRange_bounds hv 1 (by norm_num [Weibull])).1
    norm_num [Weibull, pdDefault] at hα hβ
    show 0 ≤ Weibull.pdf x v
    simp only [Weibull]
    split
    · exact le_refl 0
    · rename_i hx
      push_neg at hx
      exact mul_nonneg
        (mul_nonneg (div_nonneg (by linarith) (by linarith))
          (Real.rpow_nonneg (div_nonneg hx.le (by linarith)) _))
        (Real.exp_pos _).le
  · -- Triangular
    show 0 ≤ Triangular.pdf x v
    simp only [Triangular]
    split
    · exact le_refl 0
    · rename_i hg1
      push_neg at hg1
      obtain ⟨hul, hcl, hcu⟩ := hg1
      split
      · exact le_refl 0
      · rename_i hg2
        push_neg at hg2
        obtain ⟨hxl, hxu⟩ := hg2
        split
        · rename_i hxc
          exact div_nonneg (by linarith) (mul_nonneg (by linarith) (by linarith))
        · split
          · exact div_nonneg (by norm_num) (by linarith)
          · rename_i hxc hxec
            push_neg at hxc
            exact div_nonneg (by linarith) (mul_nonneg (by linarith) (by linarith))
  · -- SkewNormal
    have hσ := (inRange_bounds hv 1 (by norm_num [SkewNormal])).1
    norm_num [SkewNormal, pdDefault] at hσ
    show 0 ≤ SkewNormal.pdf x v
    simp only [SkewNormal]
    exact mul_nonneg
      (mul_nonneg (div_nonneg (by norm_num) (by linarith)) (normalPDF_nonneg zero_le_one))
      (normalCDF_nonneg _)
  · -- InverseGamma
    show 0 ≤ InverseGamma.pdf x v
    simp only [InverseGamma]
    split
    · exact le_refl 0
    · exact (Real.exp_pos _).le
  · -- Logistic
    have hs := (inRange_bounds hv 1 (by norm_num [Logistic])).1
    norm_num [Logistic, pdDefault] at hs
    show 0 ≤ Logistic.pdf x v
    simp only [Logistic]
    exact div_nonneg (Real.exp_pos _).le (mul_nonneg (by linarith) (sq_nonneg _))
  · -- Binomial
    have hp := (inRange_bounds hv 1 (by norm_num [Binomial])).1
    have hp1 := (inRange_bounds hv 1 (by norm_num [Binomial])).2
    norm_num [Binomial, pdDefault] at hp hp1
    show 0 ≤ Binomial.pdf x v
    simp only [Binomial]
    split
    · exact le_refl 0
    · exact mul_nonneg
        (mul_nonneg (binomCoeff_nonneg _ _) (Real.rpow_nonneg (by linarith) _))
        (Real.rpow_nonneg (by linarith) _)
  · -- Poisson
    show 0 ≤ Poisson.pdf x v
    simp only [Poisson]
    split
    · exact le_refl 0
    · exact (Real.exp_pos _).le
  · -- NegativeBinomial
    show 0 ≤ NegativeBinomial.pdf x v
    simp only [NegativeBinomial]
    split
    · exact le_refl 0
    · exact (Real.exp_pos _).le
  · -- Geometric
    have hp := (inRange_bounds hv 0 (by norm_num [Geometric])).1
    have hp1 := (inRange_bounds hv 0 (by norm_num [Geometric])).2
    norm_num [Geometric, pdDefault] at hp hp1
    show 0 ≤ Geometric.pdf x v
    simp only [Geometric]
    split
    · exact le_refl 0
    · exact mul_nonneg (by linarith) (Real.rpow_nonneg (by linarith) _)
  · -- DiscreteUniform
    show 0 ≤ DiscreteUniform.pdf x v
    simp only [DiscreteUniform]
    split
    · exact le_refl 0
    · rename_i hg
      push_neg at hg
      exact div_nonneg zero_le_one (by linarith [hg.2.2])
  · -- Bernoulli
    have hp := (inRange_bounds hv 0 (by norm_num [Bernoulli])).1
    have hp1 := (inRange_bounds hv 0 (by norm_num [Bernoulli])).2
    norm_num [Bernoulli, pdDefault] at hp hp1
    show 0 ≤ Bernoulli.pdf x v
    simp only [Bernoulli]
    split
    · linarith
    · split
      · linarith
      · exact le_refl 0

/-- C1 witness: the Normal family at its default parameters, evaluated at 0. -/
theorem c1_pdf_nonneg_witness :
    NormalDist ∈ DISTRIBUTIONS ∧ InRange NormalDist [0, 1] ∧
      0 ≤ NormalDist.pdf 0 [0, 1] := by
  refine ⟨by simp [DISTRIBUTIONS], ?_, ?_⟩
  · constructor
    · norm_num [NormalDist]
    · intro i hi
      norm_num [NormalDist] at hi
      interval_cases i <;> norm_num [NormalDist, pget, pdDefault]
  · apply c1_pdf_nonneg NormalDist (by simp [DISTRIBUTIONS]) [0, 1]
    constructor
    · norm_num [NormalDist]
    · intro i hi
      norm_num [NormalDist] at hi
      interval_cases i <;> norm_num [NormalDist, pget, pdDefault]

/-- C2 counterexample: InverseGamma with shape 0.5 (the declared minimum) and
scale 1 is inside the declared ranges, yet its support window is (0, -16). -/
theorem c2_counterexample :
    InverseGamma ∈ DISTRIBUTIONS ∧ InRange InverseGamma [0.5, 1] ∧
      ¬ ((InverseGamma.support [0.5, 1]).1 ≤ (InverseGamma.support [0.5, 1]).2) := by
  refine ⟨by simp [DISTRIBUTIONS], ⟨by norm_num [InverseGamma], ?_⟩, ?_⟩
  · intro i hi
    norm_num at hi
    interval_cases i <;> norm_num [InverseGamma, pget, pdDefault]
  · norm_num [InverseGamma, pget]

/-- C2 (amended): for every family of the registry and every in-range parameter
vector, the support window satisfies lo <= hi, provided the parameter vector
also avoids the inverted configurations (Uniform and Triangular need
lower <= upper, InverseGamma needs shape > 1). -/
theorem c2_support_ordered (d : Distribution) (hd : d ∈ DISTRIBUTIONS) (v : List ℝ)
    (hv : InRange d v) (hs : SupportSafe d v) :
    (d.support v).1 ≤ (d.support v).2 := by
  simp only [DISTRIBUTIONS, List.mem_cons, List.not_mem_nil, or_false] at hd
  rcases hd with rfl|rfl|rfl|rfl|rfl|rfl|rfl|rfl|rfl|rfl|rfl|rfl|rfl|rfl|rfl|rfl|rfl|rfl|rfl|rfl|rfl
  · -- Normal
    have hσ := (inRange_bounds hv 1 (by norm_num [NormalDist])).1
    norm_num [NormalDist, pdDefault] at hσ
    show (NormalDist.support v).1 ≤ (NormalDist.support v).2
    simp only [NormalDist]
    linarith
  · -- Beta
    show (Beta.support v).1 ≤ (Beta.support v).2
    norm_num [Beta]
  · -- Gamma
    have hβ := (inRange_bounds hv 1 (by norm_num [Gamma])).1
    norm_num [Gamma, pdDefault] at hβ
    show (Gamma.support v).1 ≤ (Gamma.support v).2
    simp only [Gamma]
    exact div_nonneg (by norm_num) (by linarith)
  · -- HalfNormal
    have hσ := (inRange_bounds hv 0 (by norm_num [HalfNormal])).1
    norm_num [HalfNormal, pdDefault] at hσ
    show (HalfNormal.support v).1 ≤ (HalfNormal.support v).2
    simp only [HalfNormal]
    linarith
  · -- Exponential
    have hlam := (inRange_bounds hv 0 (by norm_num [Exponential])).1
    norm_num [Exponential, pdDefault] at hlam
    show (Exponential.support v).1 ≤ (Exponential.support v).2
    simp only [Exponential]
    exact div_nonneg (by norm_num) (by linarith)
  · -- Uniform
    have h := hs.1 rfl
    show (Uniform.support v).1 ≤ (Uniform.support v).2
    simp only [Uniform]
    linarith
  · -- StudentT
    have hσ := (inRange_bounds hv 2 (by norm_num [StudentT])).1
    norm_num [StudentT, pdDefault] at hσ
    show (StudentT.support v).1 ≤ (StudentT.support v).2
    simp only [StudentT]
    linarith
  · -- LogNormal
    show (LogNormal.support v).1 ≤ (LogNormal.support v).2
    simp only [LogNormal]
    exact (Real.exp_pos _).le
  · -- Cauchy
    have hβ := (inRange_bounds hv 1 (by norm_num [CauchyDist])).1
    norm_num [CauchyDist, pdDefault] at hβ
    show (CauchyDist.support v).1 ≤ (CauchyDist.support v).2
    simp only [CauchyDist]
    linarith
  · -- Laplace
    have hb := (inRange_bounds hv 1 (by norm_num [Laplace])).1
    norm_num [Laplace, pdDefault] at hb
    show (Laplace.support v).1 ≤ (Laplace.support v).2
    simp only [Laplace]
    linarith
  · -- Weibull
    have hβ := (inRange_bounds hv 1 (by norm_num [Weibull])).1
    norm_num [Weibull, pdDefault] at hβ
    show (Weibull.support v).1 ≤ (Weibull.support v).2
    simp only [Weibull]
    linarith
  · -- Triangular
    have h := hs.2.1 rfl
    show (Triangular.support v).1 ≤ (Triangular.support v).2
    simp only [Triangular]
    linarith
  · -- SkewNormal
    have hσ := (inRange_bounds hv 1 (by norm_num [SkewNormal])).1
    norm_num [SkewNormal, pdDefault] at hσ
    show (SkewNormal.support v).1 ≤ (SkewNormal.support v).2
    simp only [SkewNormal]
    linarith
  · -- InverseGamma
    have hα := hs.2.2 rfl
    have hβ := (inRange_bounds hv 1 (by norm_num [InverseGamma])).1
    norm_num [InverseGamma, pdDefault] at hβ
    show (InverseGamma.support v).1 ≤ (InverseGamma.support v).2
    simp only [InverseGamma]
    exact mul_nonneg (div_nonneg (by linarith) (by linarith)) (by norm_num)
  · -- Logistic
    have hσ := (inRange_bounds hv 1 (by norm_num [Logistic])).1
    norm_num [Logistic, pdDefault] at hσ
    show (Logistic.support v).1 ≤ (Logistic.support v).2
    simp only [Logistic]
    linarith
  · -- Binomial
    have hn := (inRange_bounds hv 0 (by norm_num [Binomial])).1
    norm_num [Binomial, pdDefault] at hn
    show (Binomial.support v).1 ≤ (Binomial.support v).2
    simp only [Binomial]
    linarith
  · -- Poisson
    show (Poisson.support v).1 ≤ (Poisson.support v).2
    simp only [Poisson]
    have h := le_max_left (20:ℝ) (pget v 0 + 5 * Real.sqrt (pget v 0))
    linarith
  · -- NegativeBinomial
    have hn := (inRange_bounds hv 0 (by norm_num [NegativeBinomial])).1
    have hp := (inRange_bounds hv 1 (by norm_num [NegativeBinomial])).1
    have hp1 := (inRange_bounds hv 1 (by norm_num [NegativeBinomial])).2
    norm_num [NegativeBinomial, pdDefault] at hn hp hp1
    show (NegativeBinomial.support v).1 ≤ (NegativeBinomial.support v).2
    simp only [NegativeBinomial]
    have he : 0 ≤ pget v 0 * (1 - pget v 1) / pget v 1
        + 4 * Real.sqrt (pget v 0 * (1 - pget v 1) / (pget v 1 * pget v 1)) := by
      have h1 : 0 ≤ pget v 0 * (1 - pget v 1) / pget v 1 :=
        div_nonneg (mul_nonneg (by linarith) (by linarith)) (by linarith)
      have h2 : 0 ≤ Real.sqrt (pget v 0 * (1 - pget v 1) / (pget v 1 * pget v 1)) :=
        Real.sqrt_nonneg _
      linarith
    have hc := Int.le_ceil (pget v 0 * (1 - pget v 1) / pget v 1
      + 4 * Real.sqrt (pget v 0 * (1 - pget v 1) / (pget v 1 * pget v 1)))
    linarith
  · -- Geometric
    show (Geometric.support v).1 ≤ (Geometric.support v).2
    norm_num [Geometric]
  · -- DiscreteUniform
    have hl := (inRange_bounds hv 0 (by norm_num [DiscreteUniform])).2
    have hu := (inRange_bounds hv 1 (by norm_num [DiscreteUniform])).1
    norm_num [DiscreteUniform, pdDefault] at hl hu
    show (DiscreteUniform.support v).1 ≤ (DiscreteUniform.support v).2
    simp only [DiscreteUniform]
    linarith
  · -- Bernoulli
    show (Bernoulli.support v).1 ≤ (Bernoulli.support v).2
    norm_num [Bernoulli]

/-- C2 witness: the Normal family at its default parameters. -/
theorem c2_support_ordered_witness :
    (NormalDist ∈ DISTRIBUTIONS ∧ InRange NormalDist [0, 1] ∧ SupportSafe NormalDist [0, 1]) ∧
      (NormalDist.support [0, 1]).1 ≤ (NormalDist.support [0, 1]).2 := by
  have hmem : NormalDist ∈ DISTRIBUTIONS := by simp [DISTRIBUTIONS]
  have hin : InRange NormalDist [0, 1] := by
    refine ⟨by norm_num [NormalDist], ?_⟩
    intro i hi
    norm_num at hi
    interval_cases i <;> norm_num [NormalDist, pget, pdDefault]
  have hsafe : SupportSafe NormalDist [0, 1] := by
    refine ⟨fun h => ?_, fun h => ?_, fun h => ?_⟩ <;> simp [NormalDist] at h
  exact ⟨⟨hmem, hin, hsafe⟩, c2_support_ordered NormalDist hmem [0, 1] hin hsafe⟩

/-- C3: the sampled list has exactly numPoints+1 points for a continuous
family, and one point per integer k with ceil(lo+0.5) <= k <= floor(hi-0.5)
for a discrete family. -/
theorem c3_computePoints_length (d : Distribution) (v : List ℝ) (N : ℕ) :
    (computePoints d v N).length =
      if d.kind = Kind.discrete
      then (Finset.Icc ⌈(d.support v).1 + 0.5⌉ ⌊(d.support v).2 - 0.5⌋).card
      else N + 1 := by
  simp only [computePoints]
  by_cases h : d.kind = Kind.discrete
  · rw [if_pos h, if_pos h, List.length_map, List.length_range, Int.card_Icc]
  · rw [if_neg h, if_neg h, List.length_map, List.length_range]

/-- C5: the Uniform density with degenerate parameters (upper <= lower) is
identically zero; in the embedding the pdf is a total function, so no
error can be raised. -/
theorem c5_uniform_degenerate (lower upper x : ℝ) (h : upper ≤ lower) :
    Uniform.pdf x [lower, upper] = 0 := by
  simp [Uniform, pget, h]

/-- C5 witness: Uniform with lower=1, upper=0 evaluated at 0.5. -/
theorem c5_uniform_degenerate_witness :
    (0:ℝ) ≤ 1 ∧ Uniform.pdf 0.5 [1, 0] = 0 :=
  ⟨by norm_num, c5_uniform_degenerate 1 0 0.5 (by norm_num)⟩

/-- C7: every discrete mass function of the registry depends on x only through
its rounding to the nearest integer. -/
theorem c7_discrete_pdf_round (d : Distribution) (hd : d ∈ DISTRIBUTIONS)
    (hk : d.kind = Kind.discrete) (x : ℝ) (v : List ℝ) :
    d.pdf x v = d.pdf ((mathRound x : ℤ) : ℝ) v := by
  simp only [DISTRIBUTIONS, List.mem_cons, List.not_mem_nil, or_false] at hd
  rcases hd with rfl|rfl|rfl|rfl|rfl|rfl|rfl|rfl|rfl|rfl|rfl|rfl|rfl|rfl|rfl|rfl|rfl|rfl|rfl|rfl|rfl
  · exact absurd hk (by simp [NormalDist])
  · exact absurd hk (by simp [Beta])
  · exact absurd hk (by simp [Gamma])
  · exact absurd hk (by simp [HalfNormal])
  · exact absurd hk (by simp [Exponential])
  · exact absurd hk (by simp [Uniform])
  · exact absurd hk (by simp [StudentT])
  · exact absurd hk (by simp [LogNormal])
  · exact absurd hk (by simp [CauchyDist])
  · exact absurd hk (by simp [Laplace])
  · exact absurd hk (by simp [Weibull])
  · exact absurd hk (by simp [Triangular])
  · exact absurd hk (by simp [SkewNormal])
  · exact absurd hk (by simp [InverseGamma])
  · exact absurd hk (by simp [Logistic])
  · simp only [Binomial]
    rw [mathRound_intCast]
  · simp only [Poisson]
    rw [mathRound_intCast]
  · simp only [NegativeBinomial]
    rw [mathRound_intCast]
  · simp only [Geometric]
    rw [mathRound_intCast]
  · simp only [DiscreteUniform]
    rw [mathRound_intCast]
  · simp only [Bernoulli]
    rw [mathRound_intCast]

/-- C7 witness: the Bernoulli mass at 0.7 equals the mass at round(0.7). -/
theorem c7_discrete_pdf_round_witness :
    Bernoulli ∈ DISTRIBUTIONS ∧ Bernoulli.kind = Kind.discrete ∧
      Bernoulli.pdf 0.7 [0.5] = Bernoulli.pdf ((mathRound 0.7 : ℤ) : ℝ) [0.5] :=
  ⟨by simp [DISTRIBUTIONS], rfl,
    c7_discrete_pdf_round Bernoulli (by simp [DISTRIBUTIONS]) rfl 0.7 [0.5]⟩

/-- Symmetry of the source binomial coefficient under k -> n - k, for all real
arguments: the guards, the endpoint cases and the reduced loop bound
min(k, n-k) are each invariant under the substitution. -/
lemma binomCoeff_symm (n k : ℝ) : binomCoeff n k = binomCoeff n (n - k) := by
  unfold binomCoeff
  simp only [sub_sub_cancel]
  rw [min_comm k (n - k)]
  have h1 : (k < 0 ∨ n < k) ↔ (n - k < 0 ∨ n < n - k) := by
    constructor
    · rintro (h | h)
      · right
        linarith
      · left
        linarith
    · rintro (h | h)
      · right
        linarith
      · left
        linarith
  have h2 : (k = 0 ∨ k = n) ↔ (n - k = 0 ∨ n - k = n) := by
    constructor
    · rintro (h | h)
      · right
        rw [h]
        ring
      · left
        rw [h]
        ring
    · rintro (h | h)
      · right
        linarith
      · left
        linarith
  rw [if_congr h1 rfl (if_congr h2 rfl rfl)]

/-- C8: binomCoeff(n, k) = binomCoeff(n, n-k) for integers 0 <= k <= n. -/
theorem c8_binomCoeff_symm (n k : ℤ) (_hn : 0 ≤ n) (_hk0 : 0 ≤ k) (_hkn : k ≤ n) :
    binomCoeff (n : ℝ) (k : ℝ) = binomCoeff (n : ℝ) ((n : ℝ) - (k : ℝ)) :=
  binomCoeff_symm _ _

/-- C8 witness: n = 5, k = 2. -/
theorem c8_binomCoeff_symm_witness :
    ((0:ℤ) ≤ 5 ∧ (0:ℤ) ≤ 2 ∧ (2:ℤ) ≤ 5) ∧
      binomCoeff ((5:ℤ) : ℝ) ((2:ℤ) : ℝ) = binomCoeff ((5:ℤ) : ℝ) (((5:ℤ) : ℝ) - ((2:ℤ) : ℝ)) :=
  ⟨⟨by decide, by decide, by decide⟩, c8_binomCoeff_symm 5 2 (by decide) (by decide) (by decide)⟩

/-- C6 counterexample: Uniform with lower=1, upper=0 (both in the declared
ranges) gives a degenerate support (0.5, 0.5); every sampled x equals 0.5, so
the output is not strictly ascending in x. -/
theorem c6_counterexample :
    Uniform ∈ DISTRIBUTIONS ∧ InRange Uniform [1, 0] ∧
      ¬ List.Chain' (fun p q : Point => p.x < q.x) (computePoints Uniform [1, 0] 1) := by
  refine ⟨by simp [DISTRIBUTIONS], ⟨by norm_num [Uniform], ?_⟩, ?_⟩
  · intro i hi
    norm_num at hi
    interval_cases i <;> norm_num [Uniform, pget, pdDefault]
  · simp only [computePoints, Uniform, isFiniteR, if_true]
    norm_num [List.range_succ, pget]
    rw [if_neg (by decide : ¬ (Kind.continuous = Kind.discrete))]
    simp [List.chain'_cons]

/-- C6 (amended): the sampled list is strictly ascending in x for every
discrete family; for a continuous family it is strictly ascending provided the
grid step (hi - lo)/numPoints is at least the rounding quantum 10^(-6) of the
6-decimal x rounding (in particular, the original claim fails only when the
support window is degenerate, inverted, or subdivided below the quantum). -/
theorem c6_points_ascending (d : Distribution) (v : List ℝ) (N : ℕ)
    (hstep : d.kind = Kind.continuous →
      1 / 1000000 ≤ ((d.support v).2 - (d.support v).1) / (N : ℝ)) :
    List.Chain' (fun p q : Point => p.x < q.x) (computePoints d v N) := by
  simp only [computePoints]
  by_cases h : d.kind = Kind.discrete
  · rw [if_pos h, List.chain'_map]
    cases hM : Int.toNat (⌊(d.support v).2 - 0.5⌋ + 1 - ⌈(d.support v).1 + 0.5⌉) with
    | zero => simp
    | succ m =>
      rw [List.chain'_range_succ]
      intro i hi
      show ((⌈(d.support v).1 + 0.5⌉ + (i : ℤ) : ℤ) : ℝ)
        < ((⌈(d.support v).1 + 0.5⌉ + ((i + 1 : ℕ) : ℤ) : ℤ) : ℝ)
      push_cast
      linarith
  · rw [if_neg h, List.chain'_map]
    have hkc : d.kind = Kind.continuous := by
      cases hk2 : d.kind
      · rfl
      · exact absurd hk2 h
    have hs := hstep hkc
    rw [List.chain'_range_succ]
    intro i hi
    show round6 ((d.support v).1
        + (i : ℝ) * (((d.support v).2 - (d.support v).1) / (N : ℝ)))
      < round6 ((d.support v).1
        + ((i + 1 : ℕ) : ℝ) * (((d.support v).2 - (d.support v).1) / (N : ℝ)))
    apply round6_lt
    push_cast
    linarith

/-- C6 witness: the Normal family at default parameters with numPoints = 1. -/
theorem c6_points_ascending_witness :
    (NormalDist.kind = Kind.continuous →
      1 / 1000000 ≤ ((NormalDist.support [0, 1]).2 - (NormalDist.support [0, 1]).1)
        / ((1 : ℕ) : ℝ)) ∧
      List.Chain' (fun p q : Point => p.x < q.x) (computePoints NormalDist [0, 1] 1) := by
  have h : NormalDist.kind = Kind.continuous →
      1 / 1000000 ≤ ((NormalDist.support [0, 1]).2 - (NormalDist.support [0, 1]).1)
        / ((1 : ℕ) : ℝ) := by
    intro _
    norm_num [NormalDist, pget]
  exact ⟨h, c6_points_ascending NormalDist [0, 1] 1 h⟩

/-- C9 counterexample: at x = 0 the approximation does not have odd symmetry:
erf(-0) = erf(0) = 1 - (a1+a2+a3+a4+a5) = 10^(-9), which is nonzero. -/
theorem c9_counterexample : erf (-(0:ℝ)) ≠ - erf 0 := by
  rw [neg_zero, erf_eq]
  norm_num [erfPoly, Real.exp_zero]

/-- C9 (amended): the erf approximation satisfies erf(-x) = -erf(x) for every
nonzero x; at x = 0 itself both erf(0) and erf(-0) equal 10^(-9) rather
than 0, so odd symmetry fails there (within the documented 1.5e-7 error). -/
theorem c9_erf_odd (x : ℝ) (hx : x ≠ 0) : erf (-x) = - erf x := by
  rcases hx.lt_or_lt with h | h
  · rw [erf_eq, erf_eq, abs_neg, if_pos h, if_neg (by linarith : ¬ -x < 0)]
    ring
  · rw [erf_eq, erf_eq, abs_neg, if_neg (by linarith : ¬ x < 0), if_pos (by linarith : -x < 0)]
    ring

/-- C9 witness: odd symmetry at x = 1. -/
theorem c9_erf_odd_witness : ((1:ℝ) ≠ 0) ∧ erf (-(1:ℝ)) = - erf 1 :=
  ⟨by norm_num, c9_erf_odd 1 (by norm_num)⟩

/-- C10: the erf approximation always lies in the closed interval from -1 to 1,
and consequently the normal CDF approximation lies in the unit interval. -/
theorem c10_erf_bounded (x : ℝ) :
    (-1 ≤ erf x ∧ erf x ≤ 1) ∧ (0 ≤ normalCDF x ∧ normalCDF x ≤ 1) :=
  ⟨erf_bounds x, normalCDF_nonneg x, normalCDF_le_one x⟩
